import Mathlib

/-!
Verification of the swarm-intelligence simulation
(`3. Swarm Intelligence`: `agents.py`, `environment.py`, `agent_creator.py`).

The Python code is shallowly embedded over the real numbers:
2D points become pairs of reals, `np.linalg.norm(v, 2)` becomes
`Real.sqrt (v.1 ^ 2 + v.2 ^ 2)`, and the mutable agent collection of
`Environment` becomes explicit state passing over `Fin n → AgentState n`.
Where a claim hinges on IEEE-754 special values (the NaN produced by `0.0/0.0`
in `HidingAgent1._get_destination` when friend and enemy coincide), a second
model over `Option ℝ` tracks non-finite values explicitly; everywhere else
the arithmetic of the source is exact real arithmetic.
-/

namespace Swarm

/-- A 2D point, as stored in `Agent.position` (a pair of floats in the
source). -/
abbrev Point : Type := ℝ × ℝ

/-- Euclidean norm of a 2D vector: `np.linalg.norm(v, 2)` in the source. -/
noncomputable def norm2 (v : Point) : ℝ :=
  Real.sqrt (v.1 ^ 2 + v.2 ^ 2)

/-- Euclidean distance between two points, `np.linalg.norm(p - q, 2)`. -/
noncomputable def dist2 (p q : Point) : ℝ :=
  norm2 (p.1 - q.1, p.2 - q.2)

lemma norm2_nonneg (v : Point) : 0 ≤ norm2 v :=
  Real.sqrt_nonneg _

lemma norm2_sq (v : Point) : norm2 v ^ 2 = v.1 ^ 2 + v.2 ^ 2 :=
  Real.sq_sqrt (by positivity)

lemma dist2_sq (p q : Point) : dist2 p q ^ 2 = (p.1 - q.1) ^ 2 + (p.2 - q.2) ^ 2 :=
  norm2_sq _

lemma dist2_nonneg (p q : Point) : 0 ≤ dist2 p q :=
  norm2_nonneg _

lemma norm2_smul (c x y : ℝ) : norm2 (c * x, c * y) = |c| * norm2 (x, y) := by
  unfold norm2
  rw [show (c * x, c * y).1 = c * x from rfl, show (c * x, c * y).2 = c * y from rfl,
    mul_pow, mul_pow, ← mul_add, Real.sqrt_mul (sq_nonneg c), Real.sqrt_sq_eq_abs]

lemma norm2_pos (v : Point) (h : v ≠ ((0 : ℝ), (0 : ℝ))) : 0 < norm2 v := by
  rcases (norm2_nonneg v).lt_or_eq with hlt | heq
  · exact hlt
  · exfalso
    apply h
    have h0 : v.1 ^ 2 + v.2 ^ 2 = 0 := by
      have := norm2_sq v
      rw [← heq] at this
      simpa using this.symm
    have h1 : v.1 = 0 := by nlinarith [sq_nonneg v.1, sq_nonneg v.2]
    have h2 : v.2 = 0 := by nlinarith [sq_nonneg v.1, sq_nonneg v.2]
    exact Prod.ext h1 h2

lemma dist2_self (p : Point) : dist2 p p = 0 := by
  unfold dist2 norm2
  simp

/-- Evaluation helper: `Real.sqrt x = c` once `x` is exhibited as `c ^ 2`. -/
lemma sqrt_eval {x c : ℝ} (hc : 0 ≤ c) (h : x = c ^ 2) : Real.sqrt x = c := by
  rw [h, Real.sqrt_sq hc]

/-- `Agent._calculate_point_on_vector` (agents.py, lines 33-60): the
step-limited travel primitive.  When the norm of `position - destination`
is zero the source replaces the direction by the scalar `0`, so
`new_position = v - min(0, step) * 0 = v`; that branch is folded into
returning `position` directly. -/
noncomputable def calculate_point_on_vector (position destination : Point)
    (step_size : ℝ) : Point :=
  let n : Point := (position.1 - destination.1, position.2 - destination.2)
  let n_magnitude : ℝ := norm2 n
  if n_magnitude = 0 then position
  else
    let n1 : ℝ := n.1 / n_magnitude
    let n2 : ℝ := n.2 / n_magnitude
    let distance : ℝ := min n_magnitude step_size
    (position.1 - distance * n1, position.2 - distance * n2)

/-- **C1.** The step-limited travel primitive: for `stepSize > 0`, it returns
`current` unchanged when `distance(current, destination) = 0`, otherwise it
moves `min(d, stepSize)` along the unit vector toward the destination; in
consequence the step is bounded by `stepSize` and the distance to the
destination never increases. -/
theorem c1_calculate_point_on_vector_spec (position destination : Point)
    (step_size : ℝ) (hs : 0 < step_size) :
    (dist2 position destination = 0 →
      calculate_point_on_vector position destination step_size = position) ∧
    (dist2 position destination ≠ 0 →
      calculate_point_on_vector position destination step_size =
        (position.1 + min (dist2 position destination) step_size *
            ((destination.1 - position.1) / dist2 position destination),
         position.2 + min (dist2 position destination) step_size *
            ((destination.2 - position.2) / dist2 position destination))) ∧
    dist2 (calculate_point_on_vector position destination step_size) position
      ≤ step_size ∧
    dist2 (calculate_point_on_vector position destination step_size) destination
      ≤ dist2 position destination := by
  have hdist : dist2 position destination
      = norm2 (position.1 - destination.1, position.2 - destination.2) := rfl
  by_cases hm : norm2 (position.1 - destination.1, position.2 - destination.2) = 0
  · have hcalc : calculate_point_on_vector position destination step_size = position := by
      simp only [calculate_point_on_vector]
      rw [if_pos hm]
    refine ⟨fun _ => hcalc, fun hne => absurd (hdist.trans hm) hne, ?_, ?_⟩
    · rw [hcalc, dist2_self]
      exact hs.le
    · rw [hcalc]
  · have hMpos : 0 < norm2 (position.1 - destination.1, position.2 - destination.2) :=
      lt_of_le_of_ne (norm2_nonneg _) (Ne.symm hm)
    set M : ℝ := norm2 (position.1 - destination.1, position.2 - destination.2) with hMdef
    set t : ℝ := min M step_size with htdef
    have ht0 : 0 ≤ t := le_min hMpos.le hs.le
    have htM : t ≤ M := min_le_left _ _
    have hts : t ≤ step_size := min_le_right _ _
    have hcalc : calculate_point_on_vector position destination step_size =
        (position.1 - t * ((position.1 - destination.1) / M),
         position.2 - t * ((position.2 - destination.2) / M)) := by
      simp only [calculate_point_on_vector]
      rw [if_neg hm]
    have hstep : dist2 (position.1 - t * ((position.1 - destination.1) / M),
        position.2 - t * ((position.2 - destination.2) / M)) position = t := by
      unfold dist2
      have hpair : ((position.1 - t * ((position.1 - destination.1) / M),
            position.2 - t * ((position.2 - destination.2) / M)).1 - position.1,
          (position.1 - t * ((position.1 - destination.1) / M),
            position.2 - t * ((position.2 - destination.2) / M)).2 - position.2)
          = ((-(t / M)) * (position.1 - destination.1),
             (-(t / M)) * (position.2 - destination.2)) := by
        rw [Prod.mk.injEq]
        constructor
        · ring
        · ring
      rw [hpair, norm2_smul, ← hMdef]
      rw [abs_neg, abs_of_nonneg (div_nonneg ht0 hMpos.le)]
      rw [div_mul_cancel₀ t hm]
    have hover : dist2 (position.1 - t * ((position.1 - destination.1) / M),
        position.2 - t * ((position.2 - destination.2) / M)) destination = M - t := by
      unfold dist2
      have hpair : ((position.1 - t * ((position.1 - destination.1) / M),
            position.2 - t * ((position.2 - destination.2) / M)).1 - destination.1,
          (position.1 - t * ((position.1 - destination.1) / M),
            position.2 - t * ((position.2 - destination.2) / M)).2 - destination.2)
          = (((M - t) / M) * (position.1 - destination.1),
             ((M - t) / M) * (position.2 - destination.2)) := by
        rw [Prod.mk.injEq]
        constructor
        · field_simp
          ring
        · field_simp
          ring
      rw [hpair, norm2_smul, ← hMdef]
      rw [abs_of_nonneg (div_nonneg (by linarith) hMpos.le)]
      rw [div_mul_cancel₀ _ hm]
    refine ⟨fun h0 => absurd (hdist.symm.trans h0) hm, fun _ => ?_, ?_, ?_⟩
    · rw [hcalc, hdist, ← htdef, Prod.mk.injEq]
      constructor
      · ring
      · ring
    · rw [hcalc, hstep]
      exact hts
    · rw [hcalc, hover, hdist]
      linarith

/-- Witness for C1 at `position = (0,0)`, `destination = (3,4)`,
`step_size = 1`. -/
theorem c1_witness :
    (dist2 ((0 : ℝ), (0 : ℝ)) (3, 4) = 0 →
      calculate_point_on_vector ((0 : ℝ), (0 : ℝ)) (3, 4) 1 = ((0 : ℝ), (0 : ℝ))) ∧
    (dist2 ((0 : ℝ), (0 : ℝ)) (3, 4) ≠ 0 →
      calculate_point_on_vector ((0 : ℝ), (0 : ℝ)) (3, 4) 1 =
        ((0 : ℝ) + min (dist2 ((0 : ℝ), (0 : ℝ)) (3, 4)) 1 *
            ((3 - (0 : ℝ)) / dist2 ((0 : ℝ), (0 : ℝ)) (3, 4)),
         (0 : ℝ) + min (dist2 ((0 : ℝ), (0 : ℝ)) (3, 4)) 1 *
            ((4 - (0 : ℝ)) / dist2 ((0 : ℝ), (0 : ℝ)) (3, 4)))) ∧
    dist2 (calculate_point_on_vector ((0 : ℝ), (0 : ℝ)) (3, 4) 1) ((0 : ℝ), (0 : ℝ)) ≤ 1 ∧
    dist2 (calculate_point_on_vector ((0 : ℝ), (0 : ℝ)) (3, 4) 1) (3, 4)
      ≤ dist2 ((0 : ℝ), (0 : ℝ)) (3, 4) :=
  c1_calculate_point_on_vector_spec ((0 : ℝ), (0 : ℝ)) (3, 4) 1 (by norm_num)

/-- The straight-line-intersection block duplicated verbatim inside
`ProtectiveAgent2._get_destination` (agents.py, lines 184-209) and
`HidingAgent2._get_destination` (agents.py, lines 308-333): given the
friend `f` and enemy `e` defining a line and the agent's own position `p`,
compute the intersection of that line with the perpendicular through `p`.
Note the horizontal branch assigns `x = self.position[1]` (the *y*
coordinate of `p`), exactly as the source does. -/
noncomputable def straight_line_intersection (p f e : Point) : Point :=
  if e.1 - f.1 = 0 then (e.1, p.2)
  else if e.2 - f.2 = 0 then (p.2, e.2)
  else
    let m1 : ℝ := (e.2 - f.2) / (e.1 - f.1)
    let m2 : ℝ := -1 / m1
    let b1 : ℝ := e.2 - m1 * e.1
    let b2 : ℝ := p.2 - m2 * p.1
    let x : ℝ := (b1 - b2) / (m2 - m1)
    (x, m1 * x + b1)

/-- `ProtectiveAgent2._get_destination` (agents.py, lines 154-211):
obtuse classification against segment friend-enemy, then either endpoint
or the perpendicular intersection. `p` is `self.position`, `f` the friend
snapshot, `e` the enemy snapshot. -/
noncomputable def protective2_get_destination (p f e : Point) : Point :=
  let d_fe : ℝ := dist2 f e
  let d_fp : ℝ := dist2 f p
  let d_ep : ℝ := dist2 e p
  let point : Point :=
    if d_ep ^ 2 > d_fe ^ 2 + d_fp ^ 2 then f
    else if d_fp ^ 2 > d_fe ^ 2 + d_ep ^ 2 then e
    else straight_line_intersection p f e
  (point.1, point.2)

/-- `ProtectiveAgent1._get_destination` (agents.py, lines 106-118):
midpoint between friend and enemy. -/
noncomputable def protective1_get_destination (f e : Point) : Point :=
  ((f.1 + e.1) / 2, (f.2 + e.2) / 2)

/-- `HidingAgent2._get_destination` (agents.py, lines 283-341): same obtuse
classification, but the intersection is used in the behind-friend case and
the friend position in the other two cases. -/
noncomputable def hiding2_get_destination (p f e : Point) : Point :=
  let d_fe : ℝ := dist2 f e
  let d_fp : ℝ := dist2 f p
  let d_ep : ℝ := dist2 e p
  let point : Point :=
    if d_ep ^ 2 > d_fe ^ 2 + d_fp ^ 2 then straight_line_intersection p f e
    else if d_fp ^ 2 > d_fe ^ 2 + d_ep ^ 2 then f
    else f
  (point.1, point.2)

/-- **C3.** The obtuse branches of `ProtectiveAgent2._get_destination`:
beyond-friend yields the friend, beyond-enemy yields the enemy; in
particular `P=(-5,0)` with `F=(0,0)`, `E=(10,0)` yields `(0,0)` and
`P=(15,0)` yields `(10,0)`. -/
theorem c3_obtuse_branches :
    (∀ p f e : Point,
      (dist2 e p ^ 2 > dist2 f e ^ 2 + dist2 f p ^ 2 →
        protective2_get_destination p f e = f) ∧
      (dist2 f p ^ 2 > dist2 f e ^ 2 + dist2 e p ^ 2 →
        protective2_get_destination p f e = e)) ∧
    protective2_get_destination (-5, 0) (0, 0) (10, 0) = ((0 : ℝ), (0 : ℝ)) ∧
    protective2_get_destination (15, 0) (0, 0) (10, 0) = ((10 : ℝ), (0 : ℝ)) := by
  refine ⟨fun p f e => ⟨fun h => ?_, fun h => ?_⟩, ?_, ?_⟩
  · simp only [protective2_get_destination]
    rw [if_pos h]
  · have hfirst : ¬(dist2 e p ^ 2 > dist2 f e ^ 2 + dist2 f p ^ 2) := by
      intro hcontra
      nlinarith [sq_nonneg (dist2 f e)]
    simp only [protective2_get_destination]
    rw [if_neg hfirst, if_pos h]
  · have h : dist2 ((10 : ℝ), (0 : ℝ)) (-5, 0) ^ 2 >
        dist2 ((0 : ℝ), (0 : ℝ)) (10, 0) ^ 2 + dist2 ((0 : ℝ), (0 : ℝ)) (-5, 0) ^ 2 := by
      rw [dist2_sq, dist2_sq, dist2_sq]
      norm_num
    simp only [protective2_get_destination]
    rw [if_pos h]
  · have h2 : dist2 ((0 : ℝ), (0 : ℝ)) (15, 0) ^ 2 >
        dist2 ((0 : ℝ), (0 : ℝ)) (10, 0) ^ 2 + dist2 ((10 : ℝ), (0 : ℝ)) (15, 0) ^ 2 := by
      rw [dist2_sq, dist2_sq, dist2_sq]
      norm_num
    have h1 : ¬(dist2 ((10 : ℝ), (0 : ℝ)) (15, 0) ^ 2 >
        dist2 ((0 : ℝ), (0 : ℝ)) (10, 0) ^ 2 + dist2 ((0 : ℝ), (0 : ℝ)) (15, 0) ^ 2) := by
      rw [dist2_sq, dist2_sq, dist2_sq]
      norm_num
    simp only [protective2_get_destination]
    rw [if_neg h1, if_pos h2]

/-- Witness for C3's conditional branch at `P=(20,0)`, `F=(0,0)`, `E=(10,0)`
(beyond enemy). -/
theorem c3_witness :
    protective2_get_destination (20, 0) (0, 0) (10, 0) = ((10 : ℝ), (0 : ℝ)) :=
  (c3_obtuse_branches.1 (20, 0) (0, 0) (10, 0)).2 (by
    rw [dist2_sq, dist2_sq, dist2_sq]
    norm_num)

/-- **C4.** In the general case (friend and enemy differ in both
coordinates, and the agent classifies as between them), the point computed
by `ProtectiveAgent2._get_destination` is the foot of the perpendicular
from `P` onto line `FE`: it is collinear with `F` and `E`, and the vector
from `P` to it is orthogonal to `E - F`. -/
theorem c4_perpendicular_foot (p f e : Point)
    (h1 : ¬(dist2 e p ^ 2 > dist2 f e ^ 2 + dist2 f p ^ 2))
    (h2 : ¬(dist2 f p ^ 2 > dist2 f e ^ 2 + dist2 e p ^ 2))
    (hx : e.1 - f.1 ≠ 0) (hy : e.2 - f.2 ≠ 0) :
    ((protective2_get_destination p f e).2 - f.2) * (e.1 - f.1)
        = (e.2 - f.2) * ((protective2_get_destination p f e).1 - f.1) ∧
    ((protective2_get_destination p f e).1 - p.1) * (e.1 - f.1)
        + ((protective2_get_destination p f e).2 - p.2) * (e.2 - f.2) = 0 := by
  have hdest : protective2_get_destination p f e = straight_line_intersection p f e := by
    simp only [protective2_get_destination]
    rw [if_neg h1, if_neg h2]
  rw [hdest]
  simp only [straight_line_intersection]
  rw [if_neg hx, if_neg hy]
  generalize hm1 : (e.2 - f.2) / (e.1 - f.1) = m1
  have hm1ne : m1 ≠ 0 := hm1 ▸ div_ne_zero hy hx
  have key1 : m1 * (e.1 - f.1) = e.2 - f.2 := by
    rw [← hm1]
    exact div_mul_cancel₀ _ hx
  generalize hm2 : -1 / m1 = m2
  have key2 : m2 * m1 = -1 := by
    rw [← hm2]
    exact div_mul_cancel₀ (-1) hm1ne
  have hm2m1 : m2 - m1 ≠ 0 := by
    intro h0
    have hEq : m2 = m1 := by linarith
    have hneg : (-1 : ℝ) = m1 * m1 := by
      rw [← key2, hEq]
    nlinarith [mul_self_nonneg m1]
  generalize hb1 : e.2 - m1 * e.1 = b1
  generalize hb2 : p.2 - m2 * p.1 = b2
  generalize hX : (b1 - b2) / (m2 - m1) = X
  have keyX : X * (m2 - m1) = b1 - b2 := by
    rw [← hX]
    exact div_mul_cancel₀ _ hm2m1
  constructor
  · show (m1 * X + b1 - f.2) * (e.1 - f.1) = (e.2 - f.2) * (X - f.1)
    rw [← hb1]
    linear_combination (X - e.1) * key1
  · show (X - p.1) * (e.1 - f.1) + (m1 * X + b1 - p.2) * (e.2 - f.2) = 0
    have hline : m1 * X + b1 = m2 * X + b2 := by
      linear_combination -keyX
    have hperp : m2 * (e.2 - f.2) = -(e.1 - f.1) := by
      rw [← key1, ← mul_assoc, key2]
      ring
    rw [hline, ← hb2]
    linear_combination (X - p.1) * hperp

/-- Witness for C4 at `P=(1,0)`, `F=(0,0)`, `E=(1,1)` (between the two,
general-slope line). -/
theorem c4_witness :
    ((protective2_get_destination (1, 0) (0, 0) (1, 1)).2 - 0) * (1 - 0)
        = (1 - 0) * ((protective2_get_destination (1, 0) (0, 0) (1, 1)).1 - 0) ∧
    ((protective2_get_destination (1, 0) (0, 0) (1, 1)).1 - 1) * (1 - 0)
        + ((protective2_get_destination (1, 0) (0, 0) (1, 1)).2 - 0) * (1 - 0) = 0 :=
  c4_perpendicular_foot (1, 0) (0, 0) (1, 1)
    (by rw [dist2_sq, dist2_sq, dist2_sq]; norm_num)
    (by rw [dist2_sq, dist2_sq, dist2_sq]; norm_num)
    (by norm_num) (by norm_num)

/-- **C5 counterexample.** At `P=(3,4)`, `F=(0,0)`, `E=(10,0)` (a horizontal
friend-enemy line with `P` between them) the source's horizontal branch
returns `(P.y, E.y) = (4, 0)`, whose *y* component is `0`, not `P.x = 3`:
the claim that the returned point's y component equals the x component of
the agent's own position is false. -/
theorem c5_counterexample :
    (protective2_get_destination (3, 4) (0, 0) (10, 0)).2 ≠ (3 : ℝ) := by
  have h1 : ¬(dist2 ((10 : ℝ), (0 : ℝ)) (3, 4) ^ 2 >
      dist2 ((0 : ℝ), (0 : ℝ)) (10, 0) ^ 2 + dist2 ((0 : ℝ), (0 : ℝ)) (3, 4) ^ 2) := by
    rw [dist2_sq, dist2_sq, dist2_sq]
    norm_num
  have h2 : ¬(dist2 ((0 : ℝ), (0 : ℝ)) (3, 4) ^ 2 >
      dist2 ((0 : ℝ), (0 : ℝ)) (10, 0) ^ 2 + dist2 ((10 : ℝ), (0 : ℝ)) (3, 4) ^ 2) := by
    rw [dist2_sq, dist2_sq, dist2_sq]
    norm_num
  have hval : protective2_get_destination (3, 4) (0, 0) (10, 0) = ((4 : ℝ), (0 : ℝ)) := by
    simp only [protective2_get_destination]
    rw [if_neg h1, if_neg h2]
    simp only [straight_line_intersection]
    rw [if_neg (by norm_num), if_pos (by norm_num)]
  rw [hval]
  norm_num

/-- **C5 amended.** In the horizontal-line branch (friend and enemy share
the y coordinate but differ in x) with the agent classified between them,
the returned point is `(P.y, E.y)`: its *x* component equals the *y*
component of the agent's own position (the legacy coordinate swap), and its
*y* component equals the shared line height `E.y`. -/
theorem c5_amended_legacy_swap (p f e : Point)
    (h1 : ¬(dist2 e p ^ 2 > dist2 f e ^ 2 + dist2 f p ^ 2))
    (h2 : ¬(dist2 f p ^ 2 > dist2 f e ^ 2 + dist2 e p ^ 2))
    (hx : e.1 - f.1 ≠ 0) (hy : e.2 - f.2 = 0) :
    protective2_get_destination p f e = (p.2, e.2) := by
  simp only [protective2_get_destination]
  rw [if_neg h1, if_neg h2]
  simp only [straight_line_intersection]
  rw [if_neg hx, if_pos hy]

/-- Witness for C5's amended statement at `P=(3,4)`, `F=(0,0)`, `E=(10,0)`. -/
theorem c5_witness :
    protective2_get_destination (3, 4) (0, 0) (10, 0) = ((4 : ℝ), (0 : ℝ)) :=
  c5_amended_legacy_swap (3, 4) (0, 0) (10, 0)
    (by rw [dist2_sq, dist2_sq, dist2_sq]; norm_num)
    (by rw [dist2_sq, dist2_sq, dist2_sq]; norm_num)
    (by norm_num) (by norm_num)

/-- `HidingAgent1._get_destination` (agents.py, lines 235-262): candidate
`f + distance·u` with `u = (f - e)/‖f - e‖`, flipped to `f - distance·u`
when `d_fe > d_ep`.  This real-valued model is faithful whenever
`f ≠ e`; Lean's total division hides the `0.0/0.0 = NaN` of the source in
the coincident case, which is modelled separately by
`hiding1_get_destination_ieee`. -/
noncomputable def hiding1_get_destination (friend_position enemy_position : Point)
    (distance : ℝ) : Point :=
  let f : Point := friend_position
  let e : Point := enemy_position
  let v : Point := (f.1 - e.1, f.2 - e.2)
  let u : Point := (v.1 / norm2 v, v.2 / norm2 v)
  let point : Point := (f.1 + distance * u.1, f.2 + distance * u.2)
  let d_fe : ℝ := norm2 (f.1 - e.1, f.2 - e.2)
  let d_ep : ℝ := norm2 (e.1 - point.1, e.2 - point.2)
  if d_fe > d_ep then (f.1 - distance * u.1, f.2 - distance * u.2)
  else point

/-- Shared evaluation of `HidingAgent1._get_destination` when friend and
enemy differ and the configured distance is positive: the first candidate
survives and its distance to the enemy is `‖f - e‖ + distance`. -/
lemma hiding1_dest_of_ne (f e : Point) (d : ℝ) (hfe : f ≠ e) (hd : 0 < d) :
    hiding1_get_destination f e d =
      (f.1 + d * ((f.1 - e.1) / norm2 (f.1 - e.1, f.2 - e.2)),
       f.2 + d * ((f.2 - e.2) / norm2 (f.1 - e.1, f.2 - e.2))) ∧
    norm2 (e.1 - (f.1 + d * ((f.1 - e.1) / norm2 (f.1 - e.1, f.2 - e.2))),
        e.2 - (f.2 + d * ((f.2 - e.2) / norm2 (f.1 - e.1, f.2 - e.2))))
      = norm2 (f.1 - e.1, f.2 - e.2) + d := by
  have hv : ((f.1 - e.1, f.2 - e.2) : Point) ≠ ((0 : ℝ), (0 : ℝ)) := by
    intro h0
    apply hfe
    rw [Prod.mk.injEq] at h0
    exact Prod.ext (by linarith [h0.1]) (by linarith [h0.2])
  have hM : 0 < norm2 (f.1 - e.1, f.2 - e.2) := norm2_pos _ hv
  have hMne : norm2 (f.1 - e.1, f.2 - e.2) ≠ 0 := ne_of_gt hM
  have hpair : ((e.1 - (f.1 + d * ((f.1 - e.1) / norm2 (f.1 - e.1, f.2 - e.2))),
        e.2 - (f.2 + d * ((f.2 - e.2) / norm2 (f.1 - e.1, f.2 - e.2)))) : Point)
      = ((-((norm2 (f.1 - e.1, f.2 - e.2) + d) / norm2 (f.1 - e.1, f.2 - e.2))) * (f.1 - e.1),
         (-((norm2 (f.1 - e.1, f.2 - e.2) + d) / norm2 (f.1 - e.1, f.2 - e.2))) * (f.2 - e.2)) := by
    rw [Prod.mk.injEq]
    constructor
    · field_simp
      ring
    · field_simp
      ring
  have hdep : norm2 (e.1 - (f.1 + d * ((f.1 - e.1) / norm2 (f.1 - e.1, f.2 - e.2))),
        e.2 - (f.2 + d * ((f.2 - e.2) / norm2 (f.1 - e.1, f.2 - e.2))))
      = norm2 (f.1 - e.1, f.2 - e.2) + d := by
    rw [hpair, norm2_smul, abs_neg,
      abs_of_nonneg (div_nonneg (by linarith) hM.le), div_mul_cancel₀ _ hMne]
  refine ⟨?_, hdep⟩
  simp only [hiding1_get_destination]
  rw [hdep]
  rw [if_neg (by linarith)]

/-- **C7 counterexample.** With `F=(0,0)`, `E=(10,0)`, `distance=3`, the
candidate `(-3,0)` has distance 13 to the enemy; the flip condition
`d_fe > d_ep` (10 > 13) is false, so the code keeps `(-3,0)` — it does not
select the flipped candidate `(3,0)` the claim asserts. -/
theorem c7_counterexample :
    hiding1_get_destination (0, 0) (10, 0) 3 ≠ ((3 : ℝ), (0 : ℝ)) := by
  have h := hiding1_dest_of_ne (0, 0) (10, 0) 3 (by
    intro h0
    rw [Prod.mk.injEq] at h0
    norm_num at h0) (by norm_num)
  have hM : norm2 (((0, 0) : Point).1 - ((10, 0) : Point).1,
      ((0, 0) : Point).2 - ((10, 0) : Point).2) = 10 := by
    unfold norm2
    exact sqrt_eval (by norm_num) (by norm_num)
  rw [h.1, hM]
  intro hcontra
  rw [Prod.mk.injEq] at hcontra
  have := hcontra.1
  norm_num at this

/-- **C7 amended.** With `F=(0,0)`, `E=(10,0)`, `distance=3`, the candidate
`F + 3·u = (-3,0)` has distance 13 to the enemy, which exceeds the
friend-to-enemy distance 10, so the candidate is *kept* (the flip branch is
not taken) and the selected destination is `(-3,0)`. -/
theorem c7_amended_selected_candidate :
    hiding1_get_destination (0, 0) (10, 0) 3 = ((-3 : ℝ), (0 : ℝ)) ∧
    dist2 ((10 : ℝ), (0 : ℝ)) ((-3 : ℝ), (0 : ℝ)) = 13 := by
  have h := hiding1_dest_of_ne (0, 0) (10, 0) 3 (by
    intro h0
    rw [Prod.mk.injEq] at h0
    norm_num at h0) (by norm_num)
  have hM : norm2 (((0, 0) : Point).1 - ((10, 0) : Point).1,
      ((0, 0) : Point).2 - ((10, 0) : Point).2) = 10 := by
    unfold norm2
    exact sqrt_eval (by norm_num) (by norm_num)
  constructor
  · rw [h.1, hM]
    rw [Prod.mk.injEq]
    norm_num
  · unfold dist2 norm2
    exact sqrt_eval (by norm_num) (by norm_num)

/-- **C10.** Whenever the friend and enemy snapshots differ and the
configured distance is positive, `HidingAgent1._get_destination` returns
exactly the first candidate `F + distance·(F-E)/‖F-E‖`; its distance to the
enemy is `distance(F,E) + distance`, strictly larger than `distance(F,E)`,
so the direction-flip branch is never taken and the flipped point is a
different point. -/
theorem c10_hiding1_direction (f e : Point) (d : ℝ) (hfe : f ≠ e) (hd : 0 < d) :
    hiding1_get_destination f e d =
      (f.1 + d * ((f.1 - e.1) / norm2 (f.1 - e.1, f.2 - e.2)),
       f.2 + d * ((f.2 - e.2) / norm2 (f.1 - e.1, f.2 - e.2))) ∧
    dist2 e (f.1 + d * ((f.1 - e.1) / norm2 (f.1 - e.1, f.2 - e.2)),
        f.2 + d * ((f.2 - e.2) / norm2 (f.1 - e.1, f.2 - e.2)))
      = dist2 f e + d ∧
    ((f.1 + d * ((f.1 - e.1) / norm2 (f.1 - e.1, f.2 - e.2)),
       f.2 + d * ((f.2 - e.2) / norm2 (f.1 - e.1, f.2 - e.2))) : Point)
      ≠ (f.1 - d * ((f.1 - e.1) / norm2 (f.1 - e.1, f.2 - e.2)),
         f.2 - d * ((f.2 - e.2) / norm2 (f.1 - e.1, f.2 - e.2))) := by
  have h := hiding1_dest_of_ne f e d hfe hd
  have hv : ((f.1 - e.1, f.2 - e.2) : Point) ≠ ((0 : ℝ), (0 : ℝ)) := by
    intro h0
    apply hfe
    rw [Prod.mk.injEq] at h0
    exact Prod.ext (by linarith [h0.1]) (by linarith [h0.2])
  have hM : 0 < norm2 (f.1 - e.1, f.2 - e.2) := norm2_pos _ hv
  have hMne : norm2 (f.1 - e.1, f.2 - e.2) ≠ 0 := ne_of_gt hM
  refine ⟨h.1, h.2, ?_⟩
  intro hcontra
  rw [Prod.mk.injEq] at hcontra
  have hdq1 : d * ((f.1 - e.1) / norm2 (f.1 - e.1, f.2 - e.2)) = 0 := by
    linarith [hcontra.1]
  have hdq2 : d * ((f.2 - e.2) / norm2 (f.1 - e.1, f.2 - e.2)) = 0 := by
    linarith [hcontra.2]
  have hu1 : (f.1 - e.1) / norm2 (f.1 - e.1, f.2 - e.2) = 0 :=
    (mul_eq_zero.mp hdq1).resolve_left (ne_of_gt hd)
  have hu2 : (f.2 - e.2) / norm2 (f.1 - e.1, f.2 - e.2) = 0 :=
    (mul_eq_zero.mp hdq2).resolve_left (ne_of_gt hd)
  apply hv
  rw [Prod.mk.injEq]
  constructor
  · exact (div_eq_zero_iff.mp hu1).resolve_right hMne
  · exact (div_eq_zero_iff.mp hu2).resolve_right hMne

/-- Witness for C10 at `F=(0,0)`, `E=(3,4)`, `distance=2`. -/
theorem c10_witness :
    hiding1_get_destination (0, 0) (3, 4) 2 =
      ((0 : ℝ) + 2 * (((0 : ℝ) - 3) / norm2 ((0 : ℝ) - 3, (0 : ℝ) - 4)),
       (0 : ℝ) + 2 * (((0 : ℝ) - 4) / norm2 ((0 : ℝ) - 3, (0 : ℝ) - 4))) ∧
    dist2 (3, 4) ((0 : ℝ) + 2 * (((0 : ℝ) - 3) / norm2 ((0 : ℝ) - 3, (0 : ℝ) - 4)),
        (0 : ℝ) + 2 * (((0 : ℝ) - 4) / norm2 ((0 : ℝ) - 3, (0 : ℝ) - 4)))
      = dist2 ((0 : ℝ), (0 : ℝ)) (3, 4) + 2 ∧
    (((0 : ℝ) + 2 * (((0 : ℝ) - 3) / norm2 ((0 : ℝ) - 3, (0 : ℝ) - 4)),
       (0 : ℝ) + 2 * (((0 : ℝ) - 4) / norm2 ((0 : ℝ) - 3, (0 : ℝ) - 4))) : Point)
      ≠ ((0 : ℝ) - 2 * (((0 : ℝ) - 3) / norm2 ((0 : ℝ) - 3, (0 : ℝ) - 4)),
         (0 : ℝ) - 2 * (((0 : ℝ) - 4) / norm2 ((0 : ℝ) - 3, (0 : ℝ) - 4))) :=
  c10_hiding1_direction (0, 0) (3, 4) 2
    (by
      intro h0
      rw [Prod.mk.injEq] at h0
      norm_num at h0)
    (by norm_num)

/-- A float value in the IEEE-tracking model: `some x` is the finite real
`x`; `none` stands for a non-finite value (NaN or infinity).  numpy's
`0.0/0.0` emits a RuntimeWarning and produces NaN — it does not raise. -/
abbrev RVal : Type := Option ℝ

/-- Addition, propagating non-finite values. -/
def radd : RVal → RVal → RVal
  | some x, some y => some (x + y)
  | _, _ => none

/-- Subtraction, propagating non-finite values. -/
def rsub : RVal → RVal → RVal
  | some x, some y => some (x - y)
  | _, _ => none

/-- Multiplication, propagating non-finite values. -/
def rmul : RVal → RVal → RVal
  | some x, some y => some (x * y)
  | _, _ => none

/-- Division: any division by zero leaves the finite reals (NaN for `0/0`,
signed infinity otherwise), so it maps to `none`. -/
noncomputable def rdiv : RVal → RVal → RVal
  | some x, some y => if y = 0 then none else some (x / y)
  | _, _ => none

/-- Square root; negative arguments give NaN. -/
noncomputable def rsqrt : RVal → RVal
  | some x => if x < 0 then none else some (Real.sqrt x)
  | none => none

/-- `np.linalg.norm(v, 2)` over tracked values. -/
noncomputable def rnorm2 (v : RVal × RVal) : RVal :=
  rsqrt (radd (rmul v.1 v.1) (rmul v.2 v.2))

/-- Strict comparison: any comparison against a non-finite value is false
(IEEE comparisons with NaN are false). -/
def rlt : RVal → RVal → Prop
  | some x, some y => x < y
  | _, _ => False

noncomputable instance rltDecidable (a b : RVal) : Decidable (rlt a b) :=
  Classical.propDecidable _

/-- `HidingAgent1._get_destination` (agents.py, lines 235-262) in the
IEEE-tracking model, used for the coincident friend/enemy case where the
source divides the zero vector by its zero norm. -/
noncomputable def hiding1_get_destination_ieee (friend_position enemy_position : Point)
    (distance : ℝ) : RVal × RVal :=
  let fx : RVal := some friend_position.1
  let fy : RVal := some friend_position.2
  let ex : RVal := some enemy_position.1
  let ey : RVal := some enemy_position.2
  let v : RVal × RVal := (rsub fx ex, rsub fy ey)
  let nv : RVal := rnorm2 v
  let u : RVal × RVal := (rdiv v.1 nv, rdiv v.2 nv)
  let d : RVal := some distance
  let point : RVal × RVal := (radd fx (rmul d u.1), radd fy (rmul d u.2))
  let d_fe : RVal := rnorm2 (rsub fx ex, rsub fy ey)
  let d_ep : RVal := rnorm2 (rsub ex point.1, rsub ey point.2)
  if rlt d_ep d_fe then (rsub fx (rmul d u.1), rsub fy (rmul d u.2))
  else point

/-- **C6.** With friend and enemy snapshots both `(0,0)` and `distance = 3`,
the source computes `u = (0,0)/0.0`, whose components are `0.0/0.0 = NaN`
(numpy emits a warning, no exception), and every later value is poisoned:
the returned destination is `(NaN, NaN)`, which is *not* the friend's
position `(0,0)` the claim requires. -/
theorem c6_degenerate_nan :
    hiding1_get_destination_ieee (0, 0) (0, 0) 3 = (none, none) ∧
    (none : RVal) ≠ some ((0 : ℝ)) := by
  constructor
  · have hzero : rsub (some (((0, 0) : Point)).1) (some (((0, 0) : Point)).1) = some 0 := by
      simp [rsub]
    have hnv : rnorm2 (some (0 : ℝ), some (0 : ℝ)) = some 0 := by
      simp [rnorm2, rmul, radd, rsqrt]
    simp only [hiding1_get_destination_ieee]
    norm_num [rsub, rmul, radd, rdiv, rsqrt, rnorm2, rlt]
  · intro h
    exact Option.noConfusion h

/-- The candidate pool `list(range(0, i)) + list(range(i+1, self.n_agents))`
from `Environment.__random_agent_assignment` (environment.py, line 45):
every index except `i` itself. -/
def other_agents (n i : ℕ) : List ℕ :=
  List.range i ++ List.range' (i + 1) (n - (i + 1))

lemma mem_other_agents {n i x : ℕ} (hx : x ∈ other_agents n i) : x ≠ i := by
  unfold other_agents at hx
  rcases List.mem_append.mp hx with h | h
  · have := List.mem_range.mp h
    omega
  · have := List.mem_range'_1.mp h
    omega

lemma nodup_other_agents (n i : ℕ) : (other_agents n i).Nodup := by
  unfold other_agents
  refine List.Nodup.append (List.nodup_range i) (List.nodup_range' _ _) ?_
  intro a ha ha'
  have h1 := List.mem_range.mp ha
  have h2 := List.mem_range'_1.mp ha'
  omega

/-- Outcome of `random.sample(other_agents, 2)` (environment.py, line 46):
Python raises `ValueError` when the population holds fewer than two
elements; otherwise the outcome is the pair of values at two distinct
positions `p ≠ q` of the population list. -/
def sample_error_message : String :=
  "Sample larger than population or is negative"

def sample_two (population : List ℕ) (p q : ℕ) : Except String (ℕ × ℕ) :=
  if 2 ≤ population.length then
    Except.ok (population.getD p 0, population.getD q 0)
  else Except.error sample_error_message

/-- The friend/enemy index pair of `Environment.__neighbours_agent_assignment`
(environment.py, lines 50-62), with Python's negative indices `-1` and `-2`
resolved against a list of length `n` as `n-1` and `n-2`. -/
def neighbour_pair (n i : ℕ) : ℕ × ℕ :=
  if i = 0 then (n - 1, 1)
  else if i = n - 1 then (n - 2, 0)
  else (i - 1, i + 1)

/-- The literal friend/enemy index pair chosen by
`Environment.__neighbours_agent_assignment` (environment.py, lines 54-60)
*before* list indexing: `(-1, i+1)` for the first agent, `(-2, 0)` for the
last, `(i-1, i+1)` otherwise.  `neighbour_pair` above is its resolved form,
valid whenever the lookups succeed. -/
def neighbour_pair_raw (n i : ℕ) : ℤ × ℤ :=
  if i = 0 then (-1, (i : ℤ) + 1)
  else if i = n - 1 then (-2, 0)
  else ((i : ℤ) - 1, (i : ℤ) + 1)

def index_error_message : String := "list index out of range"

/-- Python list indexing `self.agents[idx]` on a list of length `n`:
indices in `[0, n)` are used directly, indices in `[-n, 0)` wrap to
`idx + n`, and anything else raises `IndexError`. -/
def resolve_index (n : ℕ) (idx : ℤ) : Except String ℕ :=
  if 0 ≤ idx ∧ idx < (n : ℤ) then Except.ok idx.toNat
  else if -(n : ℤ) ≤ idx ∧ idx < 0 then Except.ok (idx + (n : ℤ)).toNat
  else Except.error index_error_message

/-- The full ring assignment over all `n` agents
(`Environment.__neighbours_agent_assignment`, environment.py, lines 50-62),
with each `self.agents[...]` lookup performed under Python's indexing
semantics: the resolved `(friend, enemy)` pairs in list order, or the
`IndexError` of the first failing lookup. -/
def neighbours_assignment_exc (n : ℕ) : Except String (List (ℕ × ℕ)) :=
  (List.range n).mapM fun i => do
    let fr ← resolve_index n (neighbour_pair_raw n i).1
    let en ← resolve_index n (neighbour_pair_raw n i).2
    Except.ok (fr, en)

/-- `Environment.__init__` (environment.py, lines 26-38): the constructor
stores its parameters and performs no validation, so it never raises —
modelled with `Except` to make exceptions observable. -/
structure EnvironmentState where
  n_agents : ℕ
  step_size : ℝ
  grid_size : ℝ × ℝ

noncomputable def environment_init (n_agents : ℕ) (step_size : ℝ)
    (grid_size : ℝ × ℝ) : Except String EnvironmentState :=
  Except.ok ⟨n_agents, step_size, grid_size⟩

/-- `HidingAgent1Creator.__init__` (agent_creator.py, lines 88-90): stores
the distance with no validation; never raises. -/
structure HidingAgent1Creator where
  distance : ℝ

noncomputable def hiding_agent1_creator_init (distance : ℝ) :
    Except String HidingAgent1Creator :=
  Except.ok ⟨distance⟩

/-- **C8.** After either assignment strategy with `agentCount ≥ 3`, every
agent's friend and enemy differ from the agent and from each other: for
the random strategy this holds for every possible sampling outcome (any
two distinct positions into the candidate pool), and for the neighbours
strategy for the fixed ring pairs. -/
theorem c8_relationship_invariant :
    (∀ n i p q : ℕ, 3 ≤ n → i < n →
      p < (other_agents n i).length → q < (other_agents n i).length → p ≠ q →
      (other_agents n i).getD p 0 ≠ i ∧
      (other_agents n i).getD q 0 ≠ i ∧
      (other_agents n i).getD p 0 ≠ (other_agents n i).getD q 0) ∧
    (∀ n i : ℕ, 3 ≤ n → i < n →
      (neighbour_pair n i).1 ≠ i ∧ (neighbour_pair n i).2 ≠ i ∧
      (neighbour_pair n i).1 ≠ (neighbour_pair n i).2) := by
  constructor
  · intro n i p q _ _ hp hq hpq
    rw [List.getD_eq_getElem _ _ hp, List.getD_eq_getElem _ _ hq]
    refine ⟨mem_other_agents (List.getElem_mem hp),
      mem_other_agents (List.getElem_mem hq), ?_⟩
    intro hcontra
    exact hpq (((nodup_other_agents n i).getElem_inj_iff).mp hcontra)
  · intro n i hn hi
    unfold neighbour_pair
    rcases eq_or_ne i 0 with h0 | h0
    · rw [if_pos h0]
      subst h0
      refine ⟨by omega, by omega, by omega⟩
    · rw [if_neg h0]
      rcases eq_or_ne i (n - 1) with h1 | h1
      · rw [if_pos h1]
        refine ⟨by omega, by omega, by omega⟩
      · rw [if_neg h1]
        refine ⟨by omega, by omega, by omega⟩

/-- Witness for C8 with `n = 3`, `i = 0`, sampling positions 0 and 1, and
the ring pair of agent 0. -/
theorem c8_witness :
    ((other_agents 3 0).getD 0 0 ≠ 0 ∧
     (other_agents 3 0).getD 1 0 ≠ 0 ∧
     (other_agents 3 0).getD 0 0 ≠ (other_agents 3 0).getD 1 0) ∧
    ((neighbour_pair 3 0).1 ≠ 0 ∧ (neighbour_pair 3 0).2 ≠ 0 ∧
     (neighbour_pair 3 0).1 ≠ (neighbour_pair 3 0).2) :=
  ⟨c8_relationship_invariant.1 3 0 0 1 (by decide) (by decide) (by decide)
      (by decide) (by decide),
   c8_relationship_invariant.2 3 0 (by decide) (by decide)⟩

/-- **C9 counterexample.** Neither `Environment.__init__` with a negative
step size nor `HidingAgent1Creator.__init__` with a negative distance
raises: both constructors store the parameter and return normally, so the
claimed fail-fast validation does not exist. -/
theorem c9_counterexample :
    environment_init 5 (-1) (100, 100) = Except.ok ⟨5, -1, (100, 100)⟩ ∧
    hiding_agent1_creator_init (-1) = Except.ok ⟨-1⟩ :=
  ⟨rfl, rfl⟩

/-- **C9 amended.** No fail-fast validation exists anywhere: a non-positive
`stepSize` and a non-positive `distance` are accepted silently by the
constructors.  Resetting with `agentCount < 3` can still raise, but only
incidentally: under the random strategy both `agentCount = 1` and
`agentCount = 2` raise (sampling two candidates from a pool of
`agentCount - 1`), and under the neighbours strategy `agentCount = 1`
raises `IndexError` (`self.agents[1]` on a one-element list) while
`agentCount = 2` proceeds without error and assigns agent 0 and agent 1 the
same index (`1` resp. `0`) as both friend and enemy. -/
theorem c9_amended_no_validation :
    environment_init 5 (-1) (100, 100) = Except.ok ⟨5, -1, (100, 100)⟩ ∧
    hiding_agent1_creator_init (-1) = Except.ok ⟨-1⟩ ∧
    sample_two (other_agents 1 0) 0 1 = Except.error sample_error_message ∧
    sample_two (other_agents 2 0) 0 1 = Except.error sample_error_message ∧
    neighbours_assignment_exc 1 = Except.error index_error_message ∧
    neighbours_assignment_exc 2 = Except.ok [(1, 1), (0, 0)] :=
  ⟨rfl, rfl, rfl, rfl, rfl, rfl⟩

/-- The behavior variant an agent was constructed with (one of the four
concrete `Agent` subclasses in agents.py); `hidingAgent1` carries the
creator-supplied distance. -/
inductive Behavior where
  | protectiveAgent1 : Behavior
  | protectiveAgent2 : Behavior
  | hidingAgent1 : ℝ → Behavior
  | hidingAgent2 : Behavior

/-- `_get_destination` dispatched on the behavior variant, as a function of
the agent's own position `p` and the friend/enemy snapshots `f`, `e`. -/
noncomputable def get_destination : Behavior → Point → Point → Point → Point
  | Behavior.protectiveAgent1, _, f, e => protective1_get_destination f e
  | Behavior.protectiveAgent2, p, f, e => protective2_get_destination p f e
  | Behavior.hidingAgent1 d, _, f, e => hiding1_get_destination f e d
  | Behavior.hidingAgent2, p, f, e => hiding2_get_destination p f e

/-- The per-agent state held by the `Environment`'s agent list, with the
friend/enemy references as indices into that list (`Agent.__init__`,
agents.py lines 20-31).  The snapshot fields start out unset. -/
structure AgentState (n : ℕ) where
  position : Point
  step_size : ℝ
  behavior : Behavior
  friend : Fin n
  enemy : Fin n
  friend_position : Option Point
  enemy_position : Option Point

/-- `Agent._get_new_position` composed with `_get_destination`
(agents.py, lines 120-133): travel toward the destination computed from
the snapshots.  A missing snapshot (`none`) would crash Python; the
default `(0,0)` is never reached inside `environment_step`, whose first
pass always populates both snapshots. -/
noncomputable def get_new_position {n : ℕ} (a : AgentState n) : Point :=
  calculate_point_on_vector a.position
    (get_destination a.behavior a.position
      (a.friend_position.getD ((0 : ℝ), (0 : ℝ)))
      (a.enemy_position.getD ((0 : ℝ), (0 : ℝ))))
    a.step_size

/-- `Agent.update_state` (agents.py, lines 74-79) performed on agent `i`:
snapshot the current positions of `i`'s friend and enemy. -/
noncomputable def update_state {n : ℕ} (s : Fin n → AgentState n) (i : Fin n) :
    Fin n → AgentState n :=
  Function.update s i
    { s i with
      friend_position := some (s ((s i).friend)).position
      enemy_position := some (s ((s i).enemy)).position }

/-- `Agent.move` (agents.py, lines 81-85) performed on agent `i`. -/
noncomputable def move {n : ℕ} (s : Fin n → AgentState n) (i : Fin n) :
    Fin n → AgentState n :=
  Function.update s i { s i with position := get_new_position (s i) }

/-- `Environment.step` (environment.py, lines 98-108): one pass of
`update_state` over the agents visited in order `o1`, then one pass of
`move` in order `o2` (the source uses list order for both; the orders are
parameters so that order-independence can be stated). -/
noncomputable def environment_step {n : ℕ} (s : Fin n → AgentState n)
    (o1 o2 : List (Fin n)) : Fin n → AgentState n :=
  o2.foldl move (o1.foldl update_state s)

/-- The canonical simultaneous next position of agent `i`: a function of
the pre-step state only. -/
noncomputable def step_position {n : ℕ} (s : Fin n → AgentState n) (i : Fin n) :
    Point :=
  calculate_point_on_vector (s i).position
    (get_destination (s i).behavior (s i).position
      (s ((s i).friend)).position (s ((s i).enemy)).position)
    (s i).step_size

lemma update_state_apply_self {n : ℕ} (s : Fin n → AgentState n) (i : Fin n) :
    update_state s i i =
      { s i with
        friend_position := some (s ((s i).friend)).position
        enemy_position := some (s ((s i).enemy)).position } := by
  unfold update_state
  rw [Function.update_same]

lemma update_state_apply_ne {n : ℕ} (s : Fin n → AgentState n) {i j : Fin n}
    (h : i ≠ j) : update_state s j i = s i := by
  unfold update_state
  rw [Function.update_noteq h]

lemma move_apply_self {n : ℕ} (s : Fin n → AgentState n) (i : Fin n) :
    move s i i = { s i with position := get_new_position (s i) } := by
  unfold move
  rw [Function.update_same]

lemma move_apply_ne {n : ℕ} (s : Fin n → AgentState n) {i j : Fin n}
    (h : i ≠ j) : move s j i = s i := by
  unfold move
  rw [Function.update_noteq h]

lemma update_state_core {n : ℕ} (s : Fin n → AgentState n) (j i : Fin n) :
    ((update_state s j) i).position = (s i).position ∧
    ((update_state s j) i).step_size = (s i).step_size ∧
    ((update_state s j) i).behavior = (s i).behavior ∧
    ((update_state s j) i).friend = (s i).friend ∧
    ((update_state s j) i).enemy = (s i).enemy := by
  rcases eq_or_ne i j with rfl | h
  · rw [update_state_apply_self]
    exact ⟨rfl, rfl, rfl, rfl, rfl⟩
  · rw [update_state_apply_ne s h]
    exact ⟨rfl, rfl, rfl, rfl, rfl⟩

lemma pass1_core {n : ℕ} (o : List (Fin n)) (s : Fin n → AgentState n) (i : Fin n) :
    ((o.foldl update_state s) i).position = (s i).position ∧
    ((o.foldl update_state s) i).step_size = (s i).step_size ∧
    ((o.foldl update_state s) i).behavior = (s i).behavior ∧
    ((o.foldl update_state s) i).friend = (s i).friend ∧
    ((o.foldl update_state s) i).enemy = (s i).enemy := by
  induction o generalizing s with
  | nil => exact ⟨rfl, rfl, rfl, rfl, rfl⟩
  | cons j o ih =>
    rw [List.foldl_cons]
    have h1 := ih (update_state s j)
    have h2 := update_state_core s j i
    exact ⟨h1.1.trans h2.1, h1.2.1.trans h2.2.1, h1.2.2.1.trans h2.2.2.1,
      h1.2.2.2.1.trans h2.2.2.2.1, h1.2.2.2.2.trans h2.2.2.2.2⟩

lemma pass1_not_mem {n : ℕ} (o : List (Fin n)) (s : Fin n → AgentState n)
    (i : Fin n) (hi : i ∉ o) : (o.foldl update_state s) i = s i := by
  induction o generalizing s with
  | nil => rfl
  | cons j o ih =>
    have hij : i ≠ j := fun h => hi (List.mem_cons.mpr (Or.inl h))
    have hio : i ∉ o := fun h => hi (List.mem_cons.mpr (Or.inr h))
    rw [List.foldl_cons, ih (update_state s j) hio, update_state_apply_ne s hij]

lemma pass1_snapshot {n : ℕ} (o : List (Fin n)) (s : Fin n → AgentState n)
    (i : Fin n) (hi : i ∈ o) :
    ((o.foldl update_state s) i).friend_position
        = some ((s ((s i).friend)).position) ∧
    ((o.foldl update_state s) i).enemy_position
        = some ((s ((s i).enemy)).position) := by
  induction o generalizing s with
  | nil => exact absurd hi (List.not_mem_nil i)
  | cons j o ih =>
    rw [List.foldl_cons]
    by_cases hmem : i ∈ o
    · have h := ih (update_state s j) hmem
      have hfr : ((update_state s j) i).friend = (s i).friend :=
        (update_state_core s j i).2.2.2.1
      have hen : ((update_state s j) i).enemy = (s i).enemy :=
        (update_state_core s j i).2.2.2.2
      rw [hfr, hen] at h
      have hposf : ((update_state s j) ((s i).friend)).position
          = (s ((s i).friend)).position := (update_state_core s j _).1
      have hpose : ((update_state s j) ((s i).enemy)).position
          = (s ((s i).enemy)).position := (update_state_core s j _).1
      rw [hposf, hpose] at h
      exact h
    · have hij : i = j := by
        rcases List.mem_cons.mp hi with h | h
        · exact h
        · exact absurd h hmem
      subst hij
      rw [pass1_not_mem o _ i hmem, update_state_apply_self]
      exact ⟨rfl, rfl⟩

lemma pass2_not_mem {n : ℕ} (o : List (Fin n)) (s : Fin n → AgentState n)
    (i : Fin n) (hi : i ∉ o) : (o.foldl move s) i = s i := by
  induction o generalizing s with
  | nil => rfl
  | cons j o ih =>
    have hij : i ≠ j := fun h => hi (List.mem_cons.mpr (Or.inl h))
    have hio : i ∉ o := fun h => hi (List.mem_cons.mpr (Or.inr h))
    rw [List.foldl_cons, ih (move s j) hio, move_apply_ne s hij]

lemma pass2_position {n : ℕ} (o : List (Fin n)) (s : Fin n → AgentState n)
    (i : Fin n) (hi : i ∈ o) (hnd : o.Nodup) :
    ((o.foldl move s) i).position = get_new_position (s i) := by
  induction o generalizing s with
  | nil => exact absurd hi (List.not_mem_nil i)
  | cons j o ih =>
    have hnd' := List.nodup_cons.mp hnd
    rw [List.foldl_cons]
    rcases eq_or_ne i j with rfl | hij
    · have hio : i ∉ o := hnd'.1
      rw [pass2_not_mem o _ i hio, move_apply_self]
    · have hmem : i ∈ o := by
        rcases List.mem_cons.mp hi with h | h
        · exact absurd h hij
        · exact h
      have h := ih (move s j) hmem hnd'.2
      rw [move_apply_ne s hij] at h
      exact h

/-- **C2.** One `Environment.step` — pass 1 `update_state` on every agent
in order `o1`, pass 2 `move` on every agent in order `o2` — gives every
agent a final position equal to `step_position s i`, a function of the
pre-step state alone; in particular the result does not depend on the
visiting orders, and no agent's `move` observes another agent's post-move
position within the tick. -/
theorem c2_step_order_independent {n : ℕ} (s : Fin n → AgentState n)
    (o1 o2 : List (Fin n)) (h1 : ∀ i, i ∈ o1) (h2 : ∀ i, i ∈ o2)
    (hnd : o2.Nodup) (i : Fin n) :
    (environment_step s o1 o2 i).position = step_position s i := by
  unfold environment_step
  rw [pass2_position o2 (o1.foldl update_state s) i (h2 i) hnd]
  have hcore := pass1_core o1 s i
  have hsnap := pass1_snapshot o1 s i (h1 i)
  unfold get_new_position step_position
  rw [hcore.1, hcore.2.1, hcore.2.2.1, hsnap.1, hsnap.2]
  simp only [Option.getD_some]

/-- A concrete three-agent swarm for the C2 witness. -/
noncomputable def sample_swarm : Fin 3 → AgentState 3 := fun i =>
  { position := ((i : ℝ), 0)
    step_size := 1
    behavior := Behavior.protectiveAgent1
    friend := i + 1
    enemy := i + 2
    friend_position := none
    enemy_position := none }

/-- Witness for C2: three agents, the two passes visited in different
orders. -/
theorem c2_witness :
    (environment_step sample_swarm [0, 1, 2] [2, 0, 1] (0 : Fin 3)).position
      = step_position sample_swarm 0 :=
  c2_step_order_independent sample_swarm [0, 1, 2] [2, 0, 1]
    (by decide) (by decide) (by decide) 0

end Swarm
